import Mathlib

/-!
# Shallow embedding of the `find-closest-point` repository

This file embeds the two k-d-tree implementations of the repository and
settles the frozen claims about them.

Modelling conventions:

* `f32` coordinates and costs are modelled as exact rationals (`ℚ`).  All
  concrete inputs appearing below are small integers or halves, on which
  `f32` arithmetic (sums, differences, products, halving) is exact.
* `Point3D::distance_to` (`src/points/point.rs`) computes
  `((dx*dx + dy*dy + dz*dz)).sqrt()` — the *Euclidean* distance, with a
  square root.  Square roots of rationals are irrational in general, so the
  embedding carries the *radicand* (the squared distance) through the
  search: a carried value `d : ℚ` represents the `f32` value `√d`.  Since
  `√·` is strictly monotone on nonnegative reals, every comparison the
  source performs on distances is faithfully mirrored by the same
  comparison on radicands.  The sentinel `f32::MAX` is represented by the
  radicand `f32Max ^ 2` (so that the value represented is exactly
  `f32Max`).  Statements about the floating-point values the code returns
  are phrased through `Real.sqrt` of the carried radicand.
* `Vec` push-loops become `List.foldl` with appends; Rust's stable
  `sort_by` becomes `List.insertionSort` with a `≤`-shaped relation, which
  places earlier elements before later equal ones — the stable-sort
  position, hence the same output list.
-/

/-- A 3-dimensional point with exact rational coordinates
(`src/points/point.rs` / `src/model/point3d.rs`: three `f32` fields). -/
structure Point3D where
  x : ℚ
  y : ℚ
  z : ℚ
deriving DecidableEq

/-- Accessor: `get_coordinate` / `get_internal_state` return the coordinate vector
`[x, y, z]`; this accessor reads index `axis` of it.  Rust panics for
`axis ≥ 3`; the model totalises with default `0`, and every theorem that
quantifies over axes restricts to `axis < 3`. -/
def coordinate (p : Point3D) (axis : ℕ) : ℚ :=
  [p.x, p.y, p.z].getD axis 0

/-- The radicand of `Point3D::distance_to` (`src/points/point.rs:42`):
the source returns `(dx*dx + dy*dy + dz*dz).sqrt()`; this definition is
the value under the square root.  The `f32` the code manipulates is
`Real.sqrt (distance_to_sq a b)`. -/
def distance_to_sq (a b : Point3D) : ℚ :=
  (a.x - b.x) * (a.x - b.x) + (a.y - b.y) * (a.y - b.y) + (a.z - b.z) * (a.z - b.z)

/-- The exact value of `f32::MAX` = `(2 − 2⁻²³)·2¹²⁷`. -/
def f32Max : ℚ := (2 ^ 24 - 1) * 2 ^ 104

/-- The Rust `PartialEq for Point3D` body (identical in
`src/points/point.rs:64` and `src/model/point3d.rs:57`):
`self.x == other.x && self.y == other.y && self.z == self.z` —
note the last conjunct compares `z` of the receiver *with itself*. -/
def point_eq (a b : Point3D) : Bool :=
  (decide (a.x = b.x) && decide (a.y = b.y)) && decide (a.z = a.z)

/-- The comparator `sorting_point` / `sort_with_axis` as a binary relation:
ascending order on the coordinate at `axis`. -/
def axisLe (axis : ℕ) (a b : Point3D) : Prop :=
  coordinate a axis ≤ coordinate b axis

instance (axis : ℕ) : DecidableRel (axisLe axis) :=
  fun a b => inferInstanceAs (Decidable (coordinate a axis ≤ coordinate b axis))

instance (axis : ℕ) : IsTotal Point3D (axisLe axis) :=
  ⟨fun a b => le_total (coordinate a axis) (coordinate b axis)⟩

instance (axis : ℕ) : IsTrans Point3D (axisLe axis) :=
  ⟨fun _ _ _ => le_trans⟩

/-- The comparator `sorting_nearest` (`src/tree/kdtree.rs:175`) as a
relation on `(distance, point)` pairs: ascending on the first component. -/
def pairLe (a b : ℚ × Point3D) : Prop := a.1 ≤ b.1

instance : DecidableRel pairLe :=
  fun a b => inferInstanceAs (Decidable (a.1 ≤ b.1))

instance : IsTotal (ℚ × Point3D) pairLe := ⟨fun a b => le_total a.1 b.1⟩

instance : IsTrans (ℚ × Point3D) pairLe := ⟨fun _ _ _ => le_trans⟩

/-- Plain `≤` on `ℚ`, used for the brute-force oracle list. -/
def ratLe (a b : ℚ) : Prop := a ≤ b

instance : DecidableRel ratLe := fun a b => inferInstanceAs (Decidable (a ≤ b))

instance : IsTotal ℚ ratLe := ⟨fun a b => le_total a b⟩

instance : IsTrans ℚ ratLe := ⟨fun _ _ _ => le_trans⟩

/-- Enum `NodeDirection` (`src/tree/Ikd.rs`). -/
inductive NodeDirection where
  | LEFT
  | RIGHT
  | NOWHERE
deriving DecidableEq

/-- The median k-d tree of `src/tree/kdtree.rs`: struct `KDTree` holds
`point : Option<Rc<P>>`, `depth`, and optional children.  After
construction the `point` field is always `Some`, so the model stores the
point directly and encodes an absent child (`None`) as the extra
constructor `nil`. -/
inductive KDT where
  | nil : KDT
  | node (point : Point3D) (depth : ℕ) (left right : KDT) : KDT
deriving DecidableEq

namespace MedianTree

/-- Accessor for `node.point.as_ref().unwrap()`: the stored point.  `nil` is
unreachable on the paths the source exercises (it would panic). -/
def tree_point : KDT → Point3D
  | .nil => ⟨0, 0, 0⟩
  | .node p _ _ _ => p

/-- The set of points stored in a tree, root first. -/
def tree_points : KDT → List Point3D
  | .nil => []
  | .node p _ l r => p :: (tree_points l ++ tree_points r)

/-- Turn a recursive build result into a child field
(`match ... { Some(child) => set, _ => () }` with the field initialised
to `None`). -/
def opt_child (o : Option KDT) : KDT := o.getD KDT.nil

/-- Function `build_kd_tree` (`src/tree/kdtree.rs:46`), with an explicit recursion
fuel as the first argument (the source recursion always terminates on the
lists it is fed; fuel `points.length` is enough, as each recursive call
receives a strictly shorter list).  The `k` argument of the source is the
literal `3` at every call site, so the axis is `depth % 3`.  Returns
`none` when the fuel runs out or the input is empty (where the source
would index out of bounds). -/
def build_kd_tree : ℕ → List Point3D → ℕ → Option KDT
  | 0, _, _ => none
  | fuel + 1, points, depth =>
    let axis := depth % 3
    let sorted := List.insertionSort (axisLe axis) points
    let median := sorted.length / 2
    if sorted.length = 0 then
      none
    else
      let point := sorted.getD median ⟨0, 0, 0⟩
      if median ≠ 0 then
        if median = 1 ∧ sorted.length = 2 then
          some (KDT.node point depth
            (opt_child (build_kd_tree fuel (sorted.take median) (depth + 1)))
            KDT.nil)
        else
          some (KDT.node point depth
            (opt_child (build_kd_tree fuel (sorted.take median) (depth + 1)))
            (opt_child (build_kd_tree fuel (sorted.drop (median + 1)) (depth + 1))))
      else
        some (KDT.node point depth KDT.nil KDT.nil)

/-- Function `create_kd_tree` (`src/tree/kdtree.rs:25`): rejects an empty vector
with an error, sorts by axis 0 and builds from depth 0 (the source passes
the literal `3` as dimensionality to `build_kd_tree`).  The `depth` and
`k` parameters of the signature are otherwise unused by the source. -/
def create_kd_tree (points : List Point3D) (_depth _k : ℕ) : Except String KDT :=
  if points.length = 0 then
    Except.error "KDTreeBuildError: point len is zero."
  else
    let sorted := List.insertionSort (axisLe 0) points
    match build_kd_tree points.length sorted 0 with
    | some t => Except.ok t
    | none => Except.error "KDTreeBuildError: Error occurs while building KDTree"

/-- Function `direction` (`src/tree/kdtree.rs:293`): strictly positive difference
on the axis goes right, otherwise left. -/
def direction (query_point node_point : Point3D) (axis : ℕ) : NodeDirection :=
  if coordinate query_point axis - coordinate node_point axis > 0 then
    NodeDirection.RIGHT
  else
    NodeDirection.LEFT

/-- Function `nearest_neighbour` (`src/tree/kdtree.rs:221`), in the radicand
model: `max_distance_sq`, the pushed first components, and
`distance_to_op_side` carry the values under the source's square roots;
the initial sentinel `f32::MAX` is carried as `f32Max ^ 2`.  The `nil`
case is unreachable from the guarded call sites. -/
def nearest_neighbour : KDT → ℚ → Point3D → List (ℚ × Point3D) → ℕ → List (ℚ × Point3D)
  | .nil, _, _, best_points, _ => best_points
  | .node point depth left right, max_distance_sq, query_point, best_points, k =>
    let axis := depth % k
    let current_node_distance := distance_to_sq query_point point
    if current_node_distance < max_distance_sq then
      let maxD := current_node_distance
      let best1 := best_points ++ [(maxD, point)]
      let dir := direction query_point point axis
      if (dir = NodeDirection.LEFT ∧ left ≠ KDT.nil) ∨
          (dir = NodeDirection.RIGHT ∧ right ≠ KDT.nil) then
        if dir = NodeDirection.RIGHT then
          let best2 := nearest_neighbour right maxD query_point best1 k
          let dist_op := if left ≠ KDT.nil then distance_to_sq query_point (tree_point left)
            else f32Max ^ 2
          let dir2 := if left ≠ KDT.nil ∧ dist_op < maxD then NodeDirection.LEFT else dir
          if dist_op < maxD then
            if dir2 = NodeDirection.LEFT then nearest_neighbour left maxD query_point best2 k
            else if dir2 = NodeDirection.RIGHT then
              nearest_neighbour right maxD query_point best2 k
            else best2
          else best2
        else
          let best2 := nearest_neighbour left maxD query_point best1 k
          let dist_op := if right ≠ KDT.nil then distance_to_sq query_point (tree_point right)
            else f32Max ^ 2
          let dir2 := if right ≠ KDT.nil ∧ dist_op < maxD then NodeDirection.RIGHT else dir
          if dist_op < maxD then
            if dir2 = NodeDirection.LEFT then nearest_neighbour left maxD query_point best2 k
            else if dir2 = NodeDirection.RIGHT then
              nearest_neighbour right maxD query_point best2 k
            else best2
          else best2
      else best1
    else best_points

/-- Function `find_closest` (`src/tree/kdtree.rs:198`): run the search with the
`f32::MAX` sentinel, sort ascending by distance, truncate to
`point_limit` when long enough, return the whole list when non-empty,
`None` otherwise. -/
def find_closest (t : KDT) (query_point : Point3D) (k point_limit : ℕ) :
    Option (List (ℚ × Point3D)) :=
  let best_points_list := nearest_neighbour t (f32Max ^ 2) query_point [] k
  let sorted := List.insertionSort pairLe best_points_list
  if point_limit ≤ sorted.length then
    some (sorted.take point_limit)
  else if 0 < sorted.length then
    some sorted
  else
    none

end MedianTree

/-! ## The SAH implementation (`src/model/`) -/

/-- Struct `BoundingBox` (`src/model/bounding_box.rs`). -/
structure BoundingBox where
  k : ℕ
  min_coordinates : List ℚ
  max_coordinates : List ℚ
deriving DecidableEq

/-- Function `BoundingBox::calculate_bounding_box` (`src/model/bounding_box.rs:54`):
initialise `min[a] = f32::MAX`, `max[a] = f32::MIN` (`f32::MIN = -f32::MAX`)
and tighten per point and axis.  For an empty list the sentinels survive
(the source's own doc: "the resulting bounding box will have invalid
coordinates"). -/
def calculate_bounding_box (list : List Point3D) (k : ℕ) : BoundingBox :=
  let init : List ℚ × List ℚ := (List.replicate k f32Max, List.replicate k (-f32Max))
  let mm := list.foldl
    (fun mm point =>
      ((List.range k).map fun index =>
          let c := coordinate point index
          if mm.1.getD index 0 > c then c else mm.1.getD index 0,
       (List.range k).map fun index =>
          let c := coordinate point index
          if mm.2.getD index 0 < c then c else mm.2.getD index 0))
    init
  ⟨k, mm.1, mm.2⟩

/-- Function `BoundingBox::calculate_surface_area` (`src/model/bounding_box.rs:127`):
extents `e[a] = max[a] − min[a]`, then `2 · Σ_a e[a] · e[(a+1) % len]`. -/
def calculate_surface_area (b : BoundingBox) : ℚ :=
  let axis_list := (List.range b.k).map fun index =>
    b.max_coordinates.getD index 0 - b.min_coordinates.getD index 0
  let s := (List.range b.k).foldl
    (fun acc index =>
      acc + axis_list.getD index 0 * axis_list.getD ((index + 1) % axis_list.length) 0)
    0
  s * 2

namespace SahTree

/-- Function `SAH::partition_dataset` (`src/model/sah.rs:225`): one pass pushing
each point with coordinate strictly below `median_value` on `axis` to the
left output and the rest to the right output. -/
def partition_dataset (values : List Point3D) (median_value : ℚ) (axis : ℕ) :
    List Point3D × List Point3D :=
  values.foldl
    (fun acc point =>
      if coordinate point axis < median_value then (acc.1 ++ [point], acc.2)
      else (acc.1, acc.2 ++ [point]))
    ([], [])

/-- Function `SAH::calculate_sah_cost` (`src/model/sah.rs:174`). -/
def calculate_sah_cost (sorted_list : List Point3D) (axis k : ℕ) (median_value : ℚ) : ℚ :=
  let lr := partition_dataset sorted_list median_value axis
  let left_size := lr.1.length
  let right_size := lr.2.length
  let surface_area_left := calculate_surface_area (calculate_bounding_box lr.1 k)
  let surface_area_right := calculate_surface_area (calculate_bounding_box lr.2 k)
  2 * ((left_size : ℚ) * surface_area_left + (right_size : ℚ) * surface_area_right)

/-- Function `SAH::find_dimension_axis_with_largest_range` (`src/model/sah.rs:111`):
scan axes `0..k`, track the largest range with a strict `>` update (ties
keep the lowest axis index); initial best is axis `0` with range
`f32::MIN`. -/
def find_dimension_axis_with_largest_range (points : List Point3D) (k : ℕ) : ℕ :=
  ((List.range k).foldl
    (fun best axis =>
      let min_coord := points.foldl (fun m p => min (coordinate p axis) m) f32Max
      let max_coord := points.foldl (fun m p => max (coordinate p axis) m) (-f32Max)
      let range_value := max_coord - min_coord
      if range_value > best.2 then (axis, range_value) else best)
    (0, -f32Max)).1

/-- The result struct `SAH` (`src/model/sah.rs:13`). -/
structure SAHData where
  optimal_dimension : ℕ
  optimal_split_value : ℚ
  sah_cost : ℚ
  og_list : List Point3D
deriving DecidableEq

/-- Function `SAH::select_optimal_splitting_plane` (`src/model/sah.rs:51`): choose
the largest-range axis, sort on it, and minimise the SAH cost over the
midpoints of adjacent sorted coordinates (`for i in 1..len`), starting
from `min_cost = f32::MAX`, `optimal_split_value = 0.0`; a candidate
replaces the incumbent only on a strict `<`. -/
def select_optimal_splitting_plane (points : List Point3D) (k : ℕ) : SAHData :=
  let largest_range_axis := find_dimension_axis_with_largest_range points k
  let sorted := List.insertionSort (axisLe largest_range_axis) points
  let result := (List.range' 1 (sorted.length - 1)).foldl
    (fun st i =>
      let split_value := (coordinate (sorted.getD (i - 1) ⟨0, 0, 0⟩) largest_range_axis
        + coordinate (sorted.getD i ⟨0, 0, 0⟩) largest_range_axis) / 2
      let sah_cost := calculate_sah_cost sorted largest_range_axis k split_value
      if sah_cost < st.1 then (sah_cost, split_value) else st)
    (f32Max, 0)
  ⟨largest_range_axis, result.2, result.1, sorted⟩

/-- Rust's saturating `as usize` cast on a non-NaN `f32`: truncate toward
zero, clamping negatives to `0`. -/
def rat_to_usize (q : ℚ) : ℕ := q.floor.toNat

/-- Function `SAH::spatial_partition_dataset` (`src/model/sah.rs:338`): partition
`og_list` by the stored optimal dimension and split value; the third
component is `optimal_split_value as usize`. -/
def spatial_partition_dataset (sah : SAHData) : List Point3D × List Point3D × ℕ :=
  let lr := sah.og_list.foldl
    (fun (acc : List Point3D × List Point3D) point =>
      if coordinate point sah.optimal_dimension < sah.optimal_split_value then
        (acc.1 ++ [point], acc.2)
      else
        (acc.1, acc.2 ++ [point]))
    ([], [])
  (lr.1, lr.2, rat_to_usize sah.optimal_split_value)

/-- Function `SAH::get_constructor` (`src/model/sah.rs:310`): select the plane,
partition, and replace empty sides by `None`.  The checked-in
`sah.rs` impl returns the 3-tuple `(left, right, index)`, while the
`TreeConstructor` trait it implements and the caller `create_branch`
(`src/model/kd_tree.rs:117`) use a 4-tuple whose last component is the
SAH cost; the model follows the trait/caller and takes the cost from the
`SAH` structure. -/
def get_constructor (points : List Point3D) (k : ℕ) :
    Option (List Point3D) × Option (List Point3D) × ℕ × ℚ :=
  let sah := select_optimal_splitting_plane points k
  let cost := sah.sah_cost
  let pd := spatial_partition_dataset sah
  ((if pd.1.length > 0 then some pd.1 else none),
   (if pd.2.1.length > 0 then some pd.2.1 else none),
   pd.2.2, cost)

end SahTree

/-- Struct `Node` (`src/model/node.rs`): `index`, optional leaf bucket,
`is_leaf`, optional children.  `nil` encodes an absent child
(`Option<Box<Node>> = None`). -/
inductive NodeT where
  | nil : NodeT
  | mk (index : ℚ) (values : Option (List Point3D)) (is_leaf : Bool) (left right : NodeT) : NodeT
deriving DecidableEq

/-- Function `Node::create_leaf_node` (`src/model/node.rs`). -/
def create_leaf_node (values : List Point3D) : NodeT :=
  NodeT.mk 0 (some values) true NodeT.nil NodeT.nil

/-- The multiset of points stored in the leaves reachable from a node. -/
def node_multiset : NodeT → Multiset Point3D
  | .nil => 0
  | .mk _ values _ left right =>
    (↑(values.getD []) : Multiset Point3D) + node_multiset left + node_multiset right

/-- The multiset of points reachable from an optional root. -/
def root_multiset : Option NodeT → Multiset Point3D
  | none => 0
  | some n => node_multiset n

namespace SahTree

/-- Function `KDTree::create_branch` (`src/model/kd_tree.rs:103`), with explicit
recursion fuel (outer `Option`: `none` means the fuel ran out; the inner
`Option NodeT` is the source's `Option<Node>` return value).  Note the
source computes `axis = depth % k` and passes `axis` — not `k` — as the
dimensionality argument of `SAH::get_constructor`.  In the `cost = 0`
degenerate branch it returns a leaf of the left subset if that is
non-empty, else of the right subset: when both sides are non-empty the
right subset is dropped.  `set_child_node` records `index` on the parent
whenever it is called, i.e. whenever at least one subset is `Some`. -/
def create_branch : ℕ → List Point3D → ℕ → ℕ → ℕ → Option (Option NodeT)
  | 0, _, _, _, _ => none
  | fuel + 1, values, depth, k, min_points_per_subset =>
    if values.length ≤ min_points_per_subset then
      some (some (create_leaf_node values))
    else
      let axis := depth % k
      let c := get_constructor values axis
      let left_subset := c.1
      let right_subset := c.2.1
      let index := c.2.2.1
      let sah_cost := c.2.2.2
      if sah_cost ≠ 0 then
        let left_res : Option (Option NodeT) :=
          match left_subset with
          | some l => create_branch fuel l (depth + 1) k min_points_per_subset
          | none => some none
        let right_res : Option (Option NodeT) :=
          match right_subset with
          | some r => create_branch fuel r (depth + 1) k min_points_per_subset
          | none => some none
        match left_res, right_res with
        | some lc, some rc =>
          some (some (NodeT.mk
            (if left_subset.isSome ∨ right_subset.isSome then (index : ℚ) else 0)
            none false (lc.getD NodeT.nil) (rc.getD NodeT.nil)))
        | _, _ => none
      else
        some (match left_subset with
          | some l => some (create_leaf_node l)
          | none =>
            match right_subset with
            | some r => some (create_leaf_node r)
            | none => none)

/-- Function `KDTree::create_kd_tree` (`src/model/kd_tree.rs:71`): builds the root
with `create_branch(values, 0, k, min_points_per_subset)` and always
returns `Ok`; there is no emptiness check.  The payload models the
`KDTree { root, dimension }` struct; the outer `Option` is the
termination fuel of `create_branch` (`values.length + 1` covers every
run, since the depth-0 call never recurses — see the C6 theorem). -/
def create_kd_tree (values : List Point3D) (k min_points_per_subset : ℕ) :
    Option (Option NodeT × ℕ) :=
  (create_branch (values.length + 1) values 0 k min_points_per_subset).map
    (fun root => (root, k))

/-- The `(axis, split value, cost)` triple produced by the builder's SAH
invocation at a given depth: `create_branch` passes `axis = depth % k` as
the evaluator's dimensionality argument (`src/model/kd_tree.rs:115`). -/
def sah_select_at_depth (values : List Point3D) (k depth : ℕ) : ℕ × ℚ × ℚ :=
  let sah := select_optimal_splitting_plane values (depth % k)
  (sah.optimal_dimension, sah.optimal_split_value, sah.sah_cost)

end SahTree

/-- Brute-force oracle: the `limit` smallest squared distances from `q`
to the points of `P`, ascending. -/
def brute_smallest (points : List Point3D) (q : Point3D) (limit : ℕ) : List ℚ :=
  (List.insertionSort ratLe (points.map (distance_to_sq q))).take limit

/-! ## Concrete inputs used by the claims -/

/-- The point set of the C1 counterexample. -/
def c1_points : List Point3D := [⟨1, 1, 1⟩, ⟨2, 2, 2⟩]

/-- The query of the C1 counterexample. -/
def c1_query : Point3D := ⟨3, 3, 3⟩

/-- What `find_closest` returns (radicand model) on the C1 instance:
tree from `c1_points`, query `(3,3,3)`, `limit = 2`. -/
def c1_result : Option (List (ℚ × Point3D)) :=
  (MedianTree.create_kd_tree c1_points 0 3).toOption.bind fun t =>
    MedianTree.find_closest t c1_query 3 2

/-- The tree the median builder constructs from `c1_points`. -/
def c1_tree : KDT :=
  KDT.node ⟨2, 2, 2⟩ 0 (KDT.node ⟨1, 1, 1⟩ 1 KDT.nil KDT.nil) KDT.nil

/-- The point set of the C2 counterexample. -/
def c2_points : List Point3D := [⟨1, 1, 1⟩, ⟨2, 2, 2⟩]

/-- The point set of scenario S5 (claim C4). -/
def c4_points : List Point3D :=
  [⟨1, 1, 1⟩, ⟨2, 2, 2⟩, ⟨3, 3, 3⟩, ⟨4, 4, 4⟩, ⟨5, 5, 5⟩]

/-- The query of scenario S5 (claim C4). -/
def c4_query : Point3D := ⟨0, 0, 0⟩

/-- What `find_closest` returns (radicand model) on the S5 instance. -/
def c4_result : Option (List (ℚ × Point3D)) :=
  (MedianTree.create_kd_tree c4_points 0 3).toOption.bind fun t =>
    MedianTree.find_closest t c4_query 3 2

/-- The point set of scenario S1 (claim C7). -/
def c7_points : List Point3D := [⟨1, 2, 3⟩, ⟨7, 8, 9⟩, ⟨4, 52, 6⟩]

/-- The point set of the C8 counterexample. -/
def c8_points : List Point3D := [⟨0, 0, 0⟩, ⟨1, 5, 0⟩]

/-- The point set of scenario S4 (claim C9's witness). -/
def c9_points : List Point3D := [⟨1, 2, 3⟩, ⟨2, 3, 4⟩, ⟨3, 4, 5⟩, ⟨4, 5, 6⟩]

set_option maxRecDepth 40000

/-! ## Helper lemmas -/

/-- The push-loop shared by `partition_dataset` and
`spatial_partition_dataset` splits its input into the two filters,
relative order preserved. -/
theorem partition_foldl (v : ℚ) (axis : ℕ) :
    ∀ (l : List Point3D) (acc : List Point3D × List Point3D),
      l.foldl (fun acc point =>
          if coordinate point axis < v then (acc.1 ++ [point], acc.2)
          else (acc.1, acc.2 ++ [point])) acc
        = (acc.1 ++ l.filter (fun q => decide (coordinate q axis < v)),
           acc.2 ++ l.filter (fun q => ! decide (coordinate q axis < v)))
  | [], acc => by simp
  | point :: l, acc => by
    by_cases h : coordinate point axis < v
    · rw [List.foldl_cons, if_pos h, partition_foldl v axis l]
      simp [List.filter_cons, h]
    · rw [List.foldl_cons, if_neg h, partition_foldl v axis l]
      simp [List.filter_cons, h]

/-- Lemma: `partition_dataset` is a pair of filters. -/
theorem partition_dataset_eq (values : List Point3D) (v : ℚ) (axis : ℕ) :
    SahTree.partition_dataset values v axis
      = (values.filter (fun q => decide (coordinate q axis < v)),
         values.filter (fun q => ! decide (coordinate q axis < v))) := by
  rw [SahTree.partition_dataset, partition_foldl]
  simp

/-- Lemma: `spatial_partition_dataset` is a pair of filters of `og_list`. -/
theorem spatial_partition_dataset_eq (sah : SahTree.SAHData) :
    SahTree.spatial_partition_dataset sah
      = (sah.og_list.filter
           (fun q => decide (coordinate q sah.optimal_dimension < sah.optimal_split_value)),
         sah.og_list.filter
           (fun q => ! decide (coordinate q sah.optimal_dimension < sah.optimal_split_value)),
         SahTree.rat_to_usize sah.optimal_split_value) := by
  rw [SahTree.spatial_partition_dataset, partition_foldl]
  simp

/-- The two filters of a list recombine to its multiset. -/
theorem filter_multiset_add (l : List Point3D) (p : Point3D → Bool) :
    (↑(l.filter p) : Multiset Point3D) + ↑(l.filter fun q => ! p q) = ↑l := by
  calc (↑(l.filter p) : Multiset Point3D) + ↑(l.filter fun q => ! p q)
      = (↑(l.filter p ++ l.filter fun q => ! p q) : Multiset Point3D) :=
        (Multiset.coe_add _ _).symm
    _ = ↑l := Multiset.coe_eq_coe.mpr (List.filter_append_perm p l)

/-- The two optional subsets produced by `get_constructor` recombine to
the input multiset. -/
theorem get_constructor_multiset (values : List Point3D) (kdim : ℕ) :
    (↑((SahTree.get_constructor values kdim).1.getD []) : Multiset Point3D)
      + ↑((SahTree.get_constructor values kdim).2.1.getD []) = ↑values := by
  have hperm : (↑(SahTree.select_optimal_splitting_plane values kdim).og_list
      : Multiset Point3D) = ↑values := by
    rw [Multiset.coe_eq_coe]
    exact List.perm_insertionSort _ values
  rw [SahTree.get_constructor]
  simp only [spatial_partition_dataset_eq]
  set og := (SahTree.select_optimal_splitting_plane values kdim).og_list with hog
  set p : Point3D → Bool := fun q =>
    decide (coordinate q (SahTree.select_optimal_splitting_plane values kdim).optimal_dimension
      < (SahTree.select_optimal_splitting_plane values kdim).optimal_split_value) with hp
  have e : ∀ (l : List Point3D),
      ((if l.length > 0 then some l else none).getD ([] : List Point3D)) = l := by
    intro l
    by_cases h : l.length > 0
    · simp [h]
    · have : l = [] := List.length_eq_zero.mp (Nat.eq_zero_of_not_pos h)
      simp [this]
  rw [e, e]
  exact (filter_multiset_add og p).trans hperm

/-- The `k` field of a computed bounding box is the `k` argument. -/
theorem calculate_bounding_box_k (list : List Point3D) (k : ℕ) :
    (calculate_bounding_box list k).k = k := rfl

/-- With dimensionality `0` the surface-area loop body never runs. -/
theorem calculate_surface_area_zero_dim (list : List Point3D) :
    calculate_surface_area (calculate_bounding_box list 0) = 0 := by
  rw [calculate_surface_area, calculate_bounding_box_k]
  simp

/-- With dimensionality `0` every SAH cost vanishes: both bounding boxes
have no axes, so both surface areas are `0`. -/
theorem calculate_sah_cost_zero_dim (l : List Point3D) (axis : ℕ) (v : ℚ) :
    SahTree.calculate_sah_cost l axis 0 v = 0 := by
  rw [SahTree.calculate_sah_cost]
  simp [calculate_surface_area_zero_dim]

/-- Positivity of `f32::MAX`. -/
theorem f32Max_pos : (0 : ℚ) < f32Max := by norm_num [f32Max]

/-- The candidate loop of `select_optimal_splitting_plane` never leaves a
zero incumbent cost when every candidate costs `0`. -/
theorem select_fold_keep_zero (sorted : List Point3D) (axis : ℕ) :
    ∀ (is : List ℕ) (st : ℚ × ℚ), st.1 = 0 →
      (is.foldl (fun st i =>
          let split_value := (coordinate (sorted.getD (i - 1) ⟨0, 0, 0⟩) axis
            + coordinate (sorted.getD i ⟨0, 0, 0⟩) axis) / 2
          let sah_cost := SahTree.calculate_sah_cost sorted axis 0 split_value
          if sah_cost < st.1 then (sah_cost, split_value) else st) st).1 = 0
  | [], st, h => h
  | i :: is, st, h => by
    rw [List.foldl_cons]
    apply select_fold_keep_zero sorted axis is
    simp only [calculate_sah_cost_zero_dim, h, lt_irrefl, if_false]

/-- On at least two points, the SAH evaluator invoked with dimensionality
`0` (which is what `create_branch` passes at depth `0`) reports cost `0`. -/
theorem select_zero_dim_cost (ps : List Point3D) (h2 : 2 ≤ ps.length) :
    (SahTree.select_optimal_splitting_plane ps 0).sah_cost = 0 := by
  rw [SahTree.select_optimal_splitting_plane]
  simp only
  set axis := SahTree.find_dimension_axis_with_largest_range ps 0 with haxis
  set sorted := List.insertionSort (axisLe axis) ps with hsorted
  have hlen : sorted.length = ps.length := List.length_insertionSort _ ps
  obtain ⟨m, hm⟩ : ∃ m, sorted.length - 1 = m + 1 := by
    refine ⟨sorted.length - 2, ?_⟩
    omega
  rw [hm, List.range'_succ, List.foldl_cons]
  apply select_fold_keep_zero sorted axis
  simp only [calculate_sah_cost_zero_dim]
  rw [if_pos f32Max_pos]

/-- The projections of `get_constructor` in terms of the SAH structure. -/
theorem get_constructor_cost (values : List Point3D) (kdim : ℕ) :
    (SahTree.get_constructor values kdim).2.2.2
      = (SahTree.select_optimal_splitting_plane values kdim).sah_cost := rfl

/-- At depth 0 (the only depth `create_kd_tree` ever calls it at, and
with the source's `axis`-for-`k` argument swap) `create_branch` returns
without a single recursive call: any positive fuel suffices. -/
theorem create_branch_depth0_isSome (fuel : ℕ) (values : List Point3D) (k thr : ℕ)
    (hk : 1 ≤ k) (hthr : 1 ≤ thr) (hfuel : 1 ≤ fuel) :
    (SahTree.create_branch fuel values 0 k thr).isSome = true := by
  obtain ⟨m, rfl⟩ : ∃ m, fuel = m + 1 := ⟨fuel - 1, by omega⟩
  rw [SahTree.create_branch]
  by_cases hlen : values.length ≤ thr
  · simp [hlen]
  · have h2 : 2 ≤ values.length := by omega
    have hcost : (SahTree.get_constructor values (0 % k)).2.2.2 = 0 := by
      rw [Nat.zero_mod, get_constructor_cost]
      exact select_zero_dim_cost values h2
    simp only [if_neg hlen, hcost, ne_eq, not_true_eq_false, if_false, Option.isSome_some]

/-- Reading a replicated list with `getD` inside the bound is the replicated value. -/
theorem getD_replicate_lt (a d : ℚ) :
    ∀ (n i : ℕ), i < n → (List.replicate n a).getD i d = a
  | n + 1, 0, _ => rfl
  | n + 1, i + 1, h => getD_replicate_lt a d n i (by omega)

/-- Folding `acc + g i` over a list on which `g` is constantly `c`. -/
theorem foldl_add_const (g : ℕ → ℚ) :
    ∀ (l : List ℕ) (acc c : ℚ), (∀ i ∈ l, g i = c) →
      l.foldl (fun a i => a + g i) acc = acc + l.length * c
  | [], acc, c, _ => by simp
  | i :: l, acc, c, h => by
    rw [List.foldl_cons, foldl_add_const g l (acc + g i) c (fun j hj => h j (by simp [hj]))]
    rw [h i (by simp)]
    simp only [List.length_cons]
    push_cast
    ring

/-- Soundness of the traversal `nearest_neighbour`: every pair of the
output was already in the accumulator or is `(distance_to_sq q p, p)` for
a point `p` stored in the tree. -/
theorem nearest_neighbour_mem :
    ∀ (t : KDT) (maxD : ℚ) (q : Point3D) (best : List (ℚ × Point3D)) (k : ℕ)
      (pr : ℚ × Point3D), pr ∈ MedianTree.nearest_neighbour t maxD q best k →
      pr ∈ best ∨ (pr.2 ∈ MedianTree.tree_points t ∧ pr.1 = distance_to_sq q pr.2) := by
  intro t
  induction t with
  | nil =>
    intro maxD q best k pr h
    exact Or.inl h
  | node p d l r ihl ihr =>
    intro maxD q best k pr h
    have hbase : ∀ pr2 : ℚ × Point3D, pr2 ∈ best ++ [(distance_to_sq q p, p)] →
        pr2 ∈ best ∨ (pr2.2 ∈ MedianTree.tree_points (KDT.node p d l r)
          ∧ pr2.1 = distance_to_sq q pr2.2) := by
      intro pr2 h2
      rcases List.mem_append.mp h2 with h2 | h2
      · exact Or.inl h2
      · rw [List.mem_singleton] at h2
        subst h2
        exact Or.inr ⟨by simp [MedianTree.tree_points], rfl⟩
    have hL : ∀ (m : ℚ) (acc : List (ℚ × Point3D)),
        (∀ pr2 ∈ acc, pr2 ∈ best ∨ (pr2.2 ∈ MedianTree.tree_points (KDT.node p d l r)
          ∧ pr2.1 = distance_to_sq q pr2.2)) →
        ∀ pr2 ∈ MedianTree.nearest_neighbour l m q acc k,
          pr2 ∈ best ∨ (pr2.2 ∈ MedianTree.tree_points (KDT.node p d l r)
            ∧ pr2.1 = distance_to_sq q pr2.2) := by
      intro m acc hacc pr2 h2
      rcases ihl m q acc k pr2 h2 with h3 | ⟨h4, h5⟩
      · exact hacc pr2 h3
      · exact Or.inr ⟨by simp [MedianTree.tree_points, h4], h5⟩
    have hR : ∀ (m : ℚ) (acc : List (ℚ × Point3D)),
        (∀ pr2 ∈ acc, pr2 ∈ best ∨ (pr2.2 ∈ MedianTree.tree_points (KDT.node p d l r)
          ∧ pr2.1 = distance_to_sq q pr2.2)) →
        ∀ pr2 ∈ MedianTree.nearest_neighbour r m q acc k,
          pr2 ∈ best ∨ (pr2.2 ∈ MedianTree.tree_points (KDT.node p d l r)
            ∧ pr2.1 = distance_to_sq q pr2.2) := by
      intro m acc hacc pr2 h2
      rcases ihr m q acc k pr2 h2 with h3 | ⟨h4, h5⟩
      · exact hacc pr2 h3
      · exact Or.inr ⟨by simp [MedianTree.tree_points, h4], h5⟩
    simp only [MedianTree.nearest_neighbour] at h
    split_ifs at h
    all_goals first
      | exact Or.inl h
      | exact hbase pr h
      | exact hL _ _ hbase pr h
      | exact hR _ _ hbase pr h
      | exact hL _ _ (hR _ _ hbase) pr h
      | exact hR _ _ (hL _ _ hbase) pr h
      | exact hR _ _ (hR _ _ hbase) pr h
      | exact hL _ _ (hL _ _ hbase) pr h

/-- Every point stored in a tree built by `build_kd_tree` comes from the
input list. -/
theorem build_kd_tree_mem :
    ∀ (fuel : ℕ) (points : List Point3D) (depth : ℕ) (t : KDT),
      MedianTree.build_kd_tree fuel points depth = some t →
      ∀ p ∈ MedianTree.tree_points t, p ∈ points := by
  intro fuel
  induction fuel with
  | zero =>
    intro points depth t h
    exact absurd h (by simp [MedianTree.build_kd_tree])
  | succ n ih =>
    intro points depth t h p hp
    rw [MedianTree.build_kd_tree] at h
    simp only at h
    have hperm := List.perm_insertionSort (axisLe (depth % 3)) points
    set sorted := List.insertionSort (axisLe (depth % 3)) points with hsorted
    have hmem_sorted : ∀ x, x ∈ sorted → x ∈ points := fun x hx => hperm.mem_iff.mp hx
    have hchild : ∀ (sub : List Point3D),
        (∀ x, x ∈ sub → x ∈ sorted) →
        p ∈ MedianTree.tree_points
          (MedianTree.opt_child (MedianTree.build_kd_tree n sub (depth + 1))) →
        p ∈ points := by
      intro sub hsub hmem
      rcases hb : MedianTree.build_kd_tree n sub (depth + 1) with _ | c
      · rw [hb] at hmem
        simp [MedianTree.opt_child, MedianTree.tree_points] at hmem
      · rw [hb] at hmem
        simp only [MedianTree.opt_child, Option.getD_some] at hmem
        exact hmem_sorted p (hsub p (ih sub (depth + 1) c hb p hmem))
    by_cases h0 : sorted.length = 0
    · rw [if_pos h0] at h
      exact absurd h (by simp)
    · rw [if_neg h0] at h
      have hmedlt : sorted.length / 2 < sorted.length :=
        Nat.div_lt_self (Nat.pos_of_ne_zero h0) one_lt_two
      have hpoint : sorted.getD (sorted.length / 2) ⟨0, 0, 0⟩ ∈ points := by
        apply hmem_sorted
        rw [List.getD_eq_getElem _ _ hmedlt]
        exact List.getElem_mem hmedlt
      by_cases hmz : ¬ sorted.length / 2 = 0
      · rw [if_pos hmz] at h
        by_cases h12 : sorted.length / 2 = 1 ∧ sorted.length = 2
        · rw [if_pos h12] at h
          cases h
          simp only [MedianTree.tree_points, List.mem_cons, List.mem_append] at hp
          rcases hp with rfl | hp | hp
          · exact hpoint
          · exact hchild _ (fun x hx => List.take_subset _ _ hx) hp
          · simp [MedianTree.tree_points] at hp
        · rw [if_neg h12] at h
          cases h
          simp only [MedianTree.tree_points, List.mem_cons, List.mem_append] at hp
          rcases hp with rfl | hp | hp
          · exact hpoint
          · exact hchild _ (fun x hx => List.take_subset _ _ hx) hp
          · exact hchild _ (fun x hx => List.drop_subset _ _ hx) hp
      · rw [if_neg hmz] at h
        cases h
        simp only [MedianTree.tree_points, List.mem_cons, List.mem_append] at hp
        rcases hp with rfl | hp | hp
        · exact hpoint
        · simp [MedianTree.tree_points] at hp
        · simp [MedianTree.tree_points] at hp

/-- Relating `Option.getD … nil` to `root_multiset`. -/
theorem node_multiset_getD (o : Option NodeT) :
    node_multiset (o.getD NodeT.nil) = root_multiset o := by
  cases o <;> rfl

/-! ## Claims -/

/-- C1 (counterexample): on `P = {(1,1,1),(2,2,2)}`, `q = (3,3,3)`,
`limit = 2 ≤ |P|`, the traversal visits only the root and its left chain,
never pushes the far point, and returns a single pair; its first-component
multiset (the `f32` values are the square roots of the carried radicands)
differs from the two smallest squared distances `{3, 12}` — already in
cardinality, so the failure does not depend on the sqrt-vs-squared
reading. -/
theorem c1_counterexample :
    2 ≤ c1_points.length ∧
    ¬ ((((c1_result.getD []).map fun pr => Real.sqrt (pr.1 : ℝ)) : Multiset ℝ)
        = (((brute_smallest c1_points c1_query 2).map fun d => (d : ℝ)) : Multiset ℝ)) := by
  refine ⟨by decide, ?_⟩
  intro hcontra
  have h1 : c1_result = some [(3, ⟨2, 2, 2⟩)] := by with_unfolding_all decide
  have h2 : brute_smallest c1_points c1_query 2 = [3, 12] := by with_unfolding_all decide
  rw [h1, h2] at hcontra
  have hcard := congrArg Multiset.card hcontra
  simp [Multiset.coe_card] at hcard

/-- C1 (amended): `find_closest` is *sound* but not complete: every
returned pair `(d, p)` satisfies `p ∈ P` and `d` is the distance of `p`
from the query (as a radicand: `d = dist_sq(q, p)`; the `f32` the code
returns is `√d`, the Euclidean — not squared — distance), the output is
sorted ascending, and its length is at most `limit`; the multiset of the
`limit` smallest distances is not attained in general. -/
theorem c1_agreement_amended
    (points : List Point3D) (depthArg kArg : ℕ) (q : Point3D) (kq limit : ℕ)
    (t : KDT) (res : List (ℚ × Point3D))
    (hbuild : MedianTree.create_kd_tree points depthArg kArg = Except.ok t)
    (hfind : MedianTree.find_closest t q kq limit = some res) :
    (∀ pr ∈ res, pr.2 ∈ points ∧ pr.1 = distance_to_sq q pr.2) ∧
    List.Sorted pairLe res ∧ res.length ≤ limit := by
  rw [MedianTree.create_kd_tree] at hbuild
  by_cases h0 : points.length = 0
  · rw [if_pos h0] at hbuild
    exact Except.noConfusion hbuild
  · rw [if_neg h0] at hbuild
    simp only at hbuild
    split at hbuild
    on_goal 2 => exact Except.noConfusion hbuild
    · rename_i t' hb
      injection hbuild with hbuild
      subst hbuild
      have htree : ∀ p ∈ MedianTree.tree_points t', p ∈ points := by
        intro p hp
        exact (List.perm_insertionSort (axisLe 0) points).mem_iff.mp
          (build_kd_tree_mem points.length _ 0 t' hb p hp)
      rw [MedianTree.find_closest] at hfind
      set best := MedianTree.nearest_neighbour t' (f32Max ^ 2) q [] kq with hbest
      set sortedB := List.insertionSort pairLe best with hsortedB
      have hsorted : List.Sorted pairLe sortedB := List.sorted_insertionSort pairLe best
      have hmem : ∀ pr ∈ sortedB, pr.2 ∈ points ∧ pr.1 = distance_to_sq q pr.2 := by
        intro pr hpr
        have hpr2 : pr ∈ best := (List.perm_insertionSort pairLe best).mem_iff.mp hpr
        rcases nearest_neighbour_mem t' (f32Max ^ 2) q [] kq pr hpr2 with h3 | ⟨h4, h5⟩
        · exact absurd h3 (List.not_mem_nil pr)
        · exact ⟨htree _ h4, h5⟩
      by_cases hlim : limit ≤ sortedB.length
      · rw [if_pos hlim] at hfind
        injection hfind with hfind
        subst hfind
        refine ⟨?_, ?_, ?_⟩
        · intro pr hpr
          exact hmem pr (List.take_subset _ _ hpr)
        · exact List.Pairwise.sublist (List.take_sublist _ _) hsorted
        · rw [List.length_take]
          exact min_le_left _ _
      · rw [if_neg hlim] at hfind
        by_cases hpos : 0 < sortedB.length
        · rw [if_pos hpos] at hfind
          injection hfind with hfind
          subst hfind
          exact ⟨hmem, hsorted, by omega⟩
        · rw [if_neg hpos] at hfind
          exact Option.noConfusion hfind

/-- C1 (witness): the amended statement instantiated on the
counterexample's own tree and query. -/
theorem c1_agreement_amended_witness :
    (∀ pr ∈ [((3 : ℚ), (⟨2, 2, 2⟩ : Point3D))],
      pr.2 ∈ c1_points ∧ pr.1 = distance_to_sq c1_query pr.2) ∧
    List.Sorted pairLe [((3 : ℚ), (⟨2, 2, 2⟩ : Point3D))] ∧
    ([((3 : ℚ), (⟨2, 2, 2⟩ : Point3D))]).length ≤ 2 :=
  c1_agreement_amended c1_points 0 3 c1_query 3 2 c1_tree _
    (by with_unfolding_all rfl) (by with_unfolding_all rfl)

/-- C2 (counterexample): for `P = {(1,1,1),(2,2,2)}`, `k = 3`,
`leaf_threshold = 1`, the depth-0 SAH invocation receives dimensionality
`0 % 3 = 0` (the builder passes `axis` as `k`), every candidate cost is
`0`, and the degenerate branch keeps only the left subset: the built tree
reaches `{(1,1,1)}`, not the input multiset. -/
theorem c2_counterexample :
    (SahTree.create_kd_tree c2_points 3 1).map (fun rk => root_multiset rk.1)
        = some ({⟨1, 1, 1⟩} : Multiset Point3D) ∧
    ({(⟨1, 1, 1⟩ : Point3D)} : Multiset Point3D) ≠ (↑c2_points : Multiset Point3D) := by
  constructor
  · with_unfolding_all decide
  · with_unfolding_all decide

/-- C2 (amended): the multiset of points reachable from any `create_branch`
result is a *sub*-multiset of the input multiset; equality can fail only
in the degenerate (`cost = 0`) branch, which keeps the left subset and
discards the right one when both are non-empty. -/
theorem c2_reachable_submultiset :
    ∀ (fuel : ℕ) (values : List Point3D) (depth k thr : ℕ) (res : Option NodeT),
      SahTree.create_branch fuel values depth k thr = some res →
      root_multiset res ≤ (↑values : Multiset Point3D) := by
  intro fuel
  induction fuel with
  | zero =>
    intro values depth k thr res h
    exact absurd h (by simp [SahTree.create_branch])
  | succ n ih =>
    intro values depth k thr res h
    rw [SahTree.create_branch] at h
    by_cases hlen : values.length ≤ thr
    · rw [if_pos hlen] at h
      cases h
      simp [root_multiset, node_multiset, create_leaf_node]
    · rw [if_neg hlen] at h
      simp only at h
      have hsum := get_constructor_multiset values (depth % k)
      have hside : ∀ (o : Option (List Point3D)) (oc : Option NodeT),
          (match o with
            | some l => SahTree.create_branch n l (depth + 1) k thr
            | none => some none) = some oc →
          root_multiset oc ≤ (↑(o.getD []) : Multiset Point3D) := by
        intro o oc ho
        cases o with
        | none =>
          cases ho
          simp [root_multiset]
        | some l =>
          exact ih l (depth + 1) k thr oc ho
      by_cases hcost : (SahTree.get_constructor values (depth % k)).2.2.2 ≠ 0
      · rw [if_pos hcost] at h
        split at h
        · rename_i lc rc hlc hrc
          have h1 := hside _ lc hlc
          have h2 := hside _ rc hrc
          cases h
          simp only [root_multiset, node_multiset, node_multiset_getD, Option.getD_none,
            Multiset.coe_nil, zero_add]
          calc root_multiset lc + root_multiset rc
              ≤ ↑((SahTree.get_constructor values (depth % k)).1.getD [])
                + ↑((SahTree.get_constructor values (depth % k)).2.1.getD []) :=
                add_le_add h1 h2
            _ = ↑values := hsum
        · exact absurd h (by simp)
      · rw [if_neg hcost] at h
        injection h with h
        rcases hl : (SahTree.get_constructor values (depth % k)).1 with _ | lsub <;>
          rw [hl] at h hsum <;> dsimp only at h
        · rcases hr : (SahTree.get_constructor values (depth % k)).2.1 with _ | rsub <;>
            rw [hr] at h hsum <;> dsimp only at h
          · subst h
            simp [root_multiset]
          · subst h
            simp only [root_multiset, node_multiset, create_leaf_node, Option.getD_some,
              Option.getD_none, Multiset.coe_nil, zero_add, add_zero] at *
            exact le_of_eq hsum
        · subst h
          simp only [root_multiset, node_multiset, create_leaf_node, Option.getD_some,
            Option.getD_none, Multiset.coe_nil, zero_add, add_zero] at *
          calc (↑lsub : Multiset Point3D)
              ≤ ↑lsub + ↑((SahTree.get_constructor values (depth % k)).2.1.getD []) :=
                Multiset.le_add_right _ _
            _ = ↑values := hsum

/-- C2 (witness): the sub-multiset statement instantiated on a one-point
input, which the builder keeps whole as a leaf. -/
theorem c2_reachable_submultiset_witness :
    SahTree.create_branch 1 [(⟨1, 1, 1⟩ : Point3D)] 0 3 1
        = some (some (create_leaf_node [⟨1, 1, 1⟩])) ∧
    root_multiset (some (create_leaf_node [⟨1, 1, 1⟩]))
        ≤ (↑[(⟨1, 1, 1⟩ : Point3D)] : Multiset Point3D) :=
  ⟨by decide, c2_reachable_submultiset 1 [⟨1, 1, 1⟩] 0 3 1 _ (by decide)⟩

/-- C3: the SAH builder `create_kd_tree` (`src/model/kd_tree.rs:71`) has
no emptiness check: on the empty vector (here with `k = 3`,
`min_points_per_subset = 1`) it returns `Ok` with a root that is a leaf
holding zero points — not an `EmptyInput` error.  The parallel median
builder (`src/tree/kdtree.rs:25`) does return an error (a `String`; the
repository has no `EmptyInput` variant). -/
theorem c3_empty_input_returns_tree :
    SahTree.create_kd_tree [] 3 1 = some (some (create_leaf_node []), 3) ∧
    (∀ depth k : ℕ, MedianTree.create_kd_tree [] depth k
      = Except.error "KDTreeBuildError: point len is zero.") :=
  ⟨by with_unfolding_all decide, fun _ _ => rfl⟩

/-- C4 (counterexample): on the S5 instance the returned *points* are
`(1,1,1)` and `(2,2,2)` in that order, but the first components the code
returns are the Euclidean distances `√3` and `√12` (`distance_to`
applies `.sqrt()`), not the squared distances `3` and `12`. -/
theorem c4_counterexample :
    c4_result.map (fun l => l.map Prod.snd) = some [⟨1, 1, 1⟩, ⟨2, 2, 2⟩] ∧
    (c4_result.map fun l => l.map fun pr => Real.sqrt (pr.1 : ℝ)) ≠ some [3, 12] := by
  have h1 : c4_result = some [(3, ⟨1, 1, 1⟩), (12, ⟨2, 2, 2⟩)] := by
    with_unfolding_all decide
  constructor
  · rw [h1]
    rfl
  · rw [h1]
    intro hcontra
    simp only [Option.map_some', List.map_cons, List.map_nil, Option.some.injEq,
      List.cons.injEq, and_true] at hcontra
    have h3 : Real.sqrt 3 = 3 := by
      have := hcontra.1
      rwa [show ((3 : ℚ) : ℝ) = 3 by norm_num] at this
    have hs := Real.sq_sqrt (show (0 : ℝ) ≤ 3 by norm_num)
    rw [h3] at hs
    norm_num at hs

/-- C4 (amended): scenario S5 returns exactly the points `(1,1,1)` and
`(2,2,2)` in that order, with first components `√3` and `√12` — the
Euclidean distances; the squares of the returned first components are `3`
and `12`. -/
theorem c4_leaf_scan_amended :
    (c4_result.map fun l => l.map fun pr => (Real.sqrt (pr.1 : ℝ), pr.2))
      = some [(Real.sqrt 3, ⟨1, 1, 1⟩), (Real.sqrt 12, ⟨2, 2, 2⟩)] := by
  have h1 : c4_result = some [(3, ⟨1, 1, 1⟩), (12, ⟨2, 2, 2⟩)] := by
    with_unfolding_all decide
  rw [h1]
  norm_num

/-- C5 (counterexample): the surface area of the bounding box computed
for the empty point set with `k = 3` is not `0` — the `min = f32::MAX`,
`max = f32::MIN` sentinels survive and give huge extents (in `f32` the
extents overflow to `−∞` and the area to `+∞`; in this exact model it is
the finite value `3 · (2·f32Max)² · 2`). -/
theorem c5_counterexample :
    calculate_surface_area (calculate_bounding_box [] 3) ≠ 0 := by
  with_unfolding_all decide

/-- C5 (amended): for every `k`, the surface area of the empty-input
bounding box equals `k · (2·f32Max)² · 2` — `0` exactly when `k = 0`, and
a sentinel-derived huge positive value for every `k ≥ 1` (overflowing to
`+∞` in actual `f32` arithmetic): the sentinel initialization *does*
propagate into the surface-area result. -/
theorem c5_empty_surface_area_amended (k : ℕ) :
    calculate_surface_area (calculate_bounding_box [] k)
      = (k : ℚ) * (2 * f32Max) ^ 2 * 2 := by
  rcases Nat.eq_zero_or_pos k with hk | hk
  · subst hk
    rw [calculate_surface_area_zero_dim]
    norm_num
  · have hbox : calculate_bounding_box [] k
        = ⟨k, List.replicate k f32Max, List.replicate k (-f32Max)⟩ := rfl
    rw [hbox, calculate_surface_area]
    simp only
    have hA : (List.range k).map (fun index =>
          (List.replicate k (-f32Max)).getD index 0 - (List.replicate k f32Max).getD index 0)
        = List.replicate k (-(2 * f32Max)) := by
      rw [List.map_congr_left (g := fun _ => -(2 * f32Max)) ?_, List.map_const',
        List.length_range]
      intro i hi
      rw [getD_replicate_lt _ _ _ _ (List.mem_range.mp hi),
        getD_replicate_lt _ _ _ _ (List.mem_range.mp hi)]
      ring
    rw [hA]
    rw [foldl_add_const
      (fun index => (List.replicate k (-(2 * f32Max))).getD index 0
        * (List.replicate k (-(2 * f32Max))).getD
            ((index + 1) % (List.replicate k (-(2 * f32Max))).length) 0)
      (List.range k) 0 ((2 * f32Max) ^ 2) ?_]
    · rw [List.length_range]
      ring
    · intro i hi
      dsimp only
      rw [List.length_replicate, getD_replicate_lt _ _ _ _ (List.mem_range.mp hi),
        getD_replicate_lt _ _ _ _ (Nat.mod_lt _ hk)]
      ring

/-- C6: the recursive builder `create_branch` terminates on every
non-empty input with `k ≥ 1` and `leaf_threshold ≥ 1` when invoked the
way `create_kd_tree` invokes it (depth `0`): any positive recursion
budget suffices, because the depth-0 call either takes the size base
case or — since it passes `axis = 0 % k = 0` as the SAH dimensionality,
making every candidate cost `0` — takes the degenerate leaf branch; no
recursive call is ever made, so in particular no recursive call receives
a working set that is not smaller than its parent's. -/
theorem c6_create_branch_terminates (values : List Point3D) (k thr fuel : ℕ)
    (hk : 1 ≤ k) (hthr : 1 ≤ thr) (_hne : values ≠ []) (hfuel : 1 ≤ fuel) :
    (SahTree.create_branch fuel values 0 k thr).isSome = true :=
  create_branch_depth0_isSome fuel values k thr hk hthr hfuel

/-- C6 (witness): termination on a three-point input with minimal fuel. -/
theorem c6_create_branch_terminates_witness :
    1 ≤ 3 ∧ 1 ≤ 1 ∧ ([⟨1, 1, 1⟩, ⟨2, 2, 2⟩, ⟨3, 3, 3⟩] : List Point3D) ≠ [] ∧
    (SahTree.create_branch 1 [⟨1, 1, 1⟩, ⟨2, 2, 2⟩, ⟨3, 3, 3⟩] 0 3 1).isSome = true :=
  ⟨by decide, by decide, by decide,
    c6_create_branch_terminates [⟨1, 1, 1⟩, ⟨2, 2, 2⟩, ⟨3, 3, 3⟩] 3 1 1
      (by decide) (by decide) (by decide) (by decide)⟩

/-- C7: scenario S1 — on `{(1,2,3), (7,8,9), (4,52,6)}` with `k = 3` the
SAH evaluator picks axis `1` (the largest coordinate range, `50`), split
value `30.0`, and cost `864.0`. -/
theorem c7_sah_selection :
    ((SahTree.select_optimal_splitting_plane c7_points 3).optimal_dimension,
     (SahTree.select_optimal_splitting_plane c7_points 3).optimal_split_value,
     (SahTree.select_optimal_splitting_plane c7_points 3).sah_cost) = (1, 30, 864) := by
  with_unfolding_all decide

/-- C8 (counterexample): on `{(0,0,0),(1,5,0)}` with `k = 3`, the
builder's SAH invocation returns `(axis 0, split 1/2, cost 0)` at depth 1
but `(axis 1, split 5/2, cost 0)` at depth 2: the `(axis, value, cost)`
triple depends on the recursion depth, because `create_branch` passes
`depth % k` as the evaluator's dimensionality. -/
theorem c8_counterexample :
    SahTree.sah_select_at_depth c8_points 3 1 ≠ SahTree.sah_select_at_depth c8_points 3 2 := by
  with_unfolding_all decide

/-- C8 (amended): the builder's SAH invocation depends on the depth only
through `depth % k` (which it passes as the evaluator's dimensionality):
two depths congruent modulo `k` yield identical triples, incongruent
depths may differ. -/
theorem c8_depth_dependence_amended (values : List Point3D) (k d1 d2 : ℕ)
    (h : d1 % k = d2 % k) :
    SahTree.sah_select_at_depth values k d1 = SahTree.sah_select_at_depth values k d2 := by
  rw [SahTree.sah_select_at_depth, SahTree.sah_select_at_depth, h]

/-- C8 (witness): depths 1 and 4 agree modulo 3 and yield the same triple. -/
theorem c8_depth_dependence_amended_witness :
    1 % 3 = 4 % 3 ∧
    SahTree.sah_select_at_depth c8_points 3 1 = SahTree.sah_select_at_depth c8_points 3 4 :=
  ⟨by decide, c8_depth_dependence_amended c8_points 3 1 4 (by decide)⟩

/-- C9: on every point vector, in-range axis, and split value, both
`partition_dataset` and `spatial_partition_dataset` put a point in the
left output iff its coordinate on the axis is strictly below the split
value and in the right output otherwise, preserving relative input order
within each side — i.e., the outputs are the two filters of the input. -/
theorem c9_partition_splits (values : List Point3D) (v : ℚ) (axis : ℕ) (_haxis : axis < 3)
    (sah : SahTree.SAHData) (_hdim : sah.optimal_dimension < 3) :
    SahTree.partition_dataset values v axis
      = (values.filter (fun q => decide (coordinate q axis < v)),
         values.filter (fun q => ! decide (coordinate q axis < v)))
    ∧ (SahTree.spatial_partition_dataset sah).1
        = sah.og_list.filter
            (fun q => decide (coordinate q sah.optimal_dimension < sah.optimal_split_value))
    ∧ (SahTree.spatial_partition_dataset sah).2.1
        = sah.og_list.filter
            (fun q => ! decide (coordinate q sah.optimal_dimension < sah.optimal_split_value)) :=
  ⟨partition_dataset_eq values v axis,
   by rw [spatial_partition_dataset_eq],
   by rw [spatial_partition_dataset_eq]⟩

/-- C9 (witness): scenario S4 — splitting
`{(1,2,3),(2,3,4),(3,4,5),(4,5,6)}` at `value = 2.5` on axis `0` puts the
first two points left and the last two right. -/
theorem c9_partition_splits_witness :
    (0 : ℕ) < 3 ∧
    SahTree.partition_dataset c9_points (5 / 2) 0
      = (c9_points.filter (fun q => decide (coordinate q 0 < 5 / 2)),
         c9_points.filter (fun q => ! decide (coordinate q 0 < 5 / 2))) ∧
    SahTree.partition_dataset c9_points (5 / 2) 0
      = ([⟨1, 2, 3⟩, ⟨2, 3, 4⟩], [⟨3, 4, 5⟩, ⟨4, 5, 6⟩]) :=
  ⟨by decide,
   (c9_partition_splits c9_points (5 / 2) 0 (by decide) ⟨0, 5 / 2, 0, c9_points⟩ (by decide)).1,
   by with_unfolding_all decide⟩

/-- C10: `PartialEq for Point3D` compares `z` of the receiver with itself
(`self.z == self.z`), so over non-NaN coordinates (all coordinates in
this exact model) equality holds iff the `x` and `y` components agree —
two points differing only in `z`, such as `(1,2,3)` and `(1,2,99)`,
compare equal. -/
theorem c10_point_eq_ignores_z :
    (∀ a b : Point3D, point_eq a b = true ↔ (a.x = b.x ∧ a.y = b.y)) ∧
    point_eq ⟨1, 2, 3⟩ ⟨1, 2, 99⟩ = true := by
  constructor
  · intro a b
    simp [point_eq]
  · decide
